import Mathlib

/-!
HID report decoders of `hid_controller.c`.

A shallow embedding of the stateful report decoders and of the generic report
dispatcher in `src/hid_controller.c`.

* Bytes (`uint8_t`) and the 16-bit length are natural numbers; the one place
  where wrap-around matters (`len--`) reduces modulo `2^16`.
* The function-local `static` variables become fields of `State`.
* Every call of `putchar` / `printf` becomes one `Out` event, in call order.
  The `TU_LOG1..3` trace macros of the host stack write to the stack's debug
  channel and are not part of the decoder output.
* A pointer to report bytes is the list of bytes readable from that pointer on;
  `report++` is `List.drop 1`.  An array read outside its bounds is a `Fault`.
-/

namespace HidController

/-! ## Faults and output events -/

/-- An array access outside the bounds of the array (undefined behaviour in C). -/
inductive Fault where
  /-- Read of `keycode2ascii[k]` with `k` outside the table. -/
  | table_oob (k : Nat)
  /-- Read of `report[i]` past the bytes behind the pointer. -/
  | report_oob (i : Nat)
  /-- Access of `buffer[i]` outside the static buffer of `print_report`. -/
  | buffer_oob (i : Nat)
  /-- Access of `hid_info[i]` or `report_info[i]` outside the array. -/
  | info_oob (i : Nat)
  /-- Read of `keycode[i]` outside the keycode slots. -/
  | keycode_oob (i : Nat)
  deriving DecidableEq, Repr

/-- One call of `putchar` or `printf`, with its arguments. -/
inductive Out where
  /-- The call `putchar(ch)`. -/
  | putchar (ch : Nat)
  /-- The call `printf(" %c%c%c ", l, m, r)`. -/
  | buttons (l m r : Char)
  /-- The call `printf("(%d %d %d)\r\n", x, y, wheel)`. -/
  | cursor (x y wheel : Int)
  /-- The call `printf("New report:\n")`. -/
  | new_report
  /-- The call `printf("%d:%02X ", i, v)`. -/
  | pair (i v : Nat)
  /-- The call `printf("\n")`. -/
  | newline
  /-- The call `printf("Couldn't find the report info for this report !\r\n")`. -/
  | not_found
  deriving DecidableEq, Repr

/-- Hexadecimal digit, upper case, as `%X` prints it. -/
def hexDigit (n : Nat) : Char :=
  if n < 10 then Char.ofNat (48 + n) else Char.ofNat (55 + n)

/-- The text `%02X` produces for a byte. -/
def hex02 (v : Nat) : String :=
  String.mk [hexDigit (v / 16 % 16), hexDigit (v % 16)]

/-- The text a single output call writes. -/
def Out.text : Out → String
  | .putchar ch => String.mk [Char.ofNat ch]
  | .buttons l m r => String.mk [' ', l, m, r, ' ']
  | .cursor x y wheel =>
      "(" ++ toString x ++ " " ++ toString y ++ " " ++ toString wheel ++ ")\r\n"
  | .new_report => "New report:\n"
  | .pair i v => toString i ++ ":" ++ hex02 v ++ " "
  | .newline => "\n"
  | .not_found => "Couldn't find the report info for this report !\r\n"

/-- The text a sequence of output calls writes. -/
def render (os : List Out) : String :=
  String.join (os.map Out.text)

/-- Checked array read: `xs[i]`, or the given fault when `i` is out of bounds. -/
def rd {α : Type} (xs : List α) (i : Nat) (f : Fault) : Except Fault α :=
  match xs[i]? with
  | some x => .ok x
  | none => .error f

/-! ## Constants and types of the host stack header -/

/-- The constant `MAX_REPORT` (line 56). -/
def MAX_REPORT : Nat := 4

/-- Modelled from the spec: `KEYBOARD_MODIFIER_LEFTSHIFT` is declared in the
host stack header `tusb.h`, which is not among the sources; the spec's left
shift modifier bit, bit 1 of the modifier byte of the boot keyboard report. -/
def KEYBOARD_MODIFIER_LEFTSHIFT : Nat := 2

/-- Modelled from the spec: `KEYBOARD_MODIFIER_RIGHTSHIFT` is declared in the
host stack header `tusb.h`, which is not among the sources; the spec's right
shift modifier bit, bit 5 of the modifier byte of the boot keyboard report. -/
def KEYBOARD_MODIFIER_RIGHTSHIFT : Nat := 32

/-- Modelled from the spec: `MOUSE_BUTTON_LEFT` is declared in `tusb.h`, which
is not among the sources; bit 0, as the spec's scenario prints `buttons:1` as
`L--`. -/
def MOUSE_BUTTON_LEFT : Nat := 1

/-- Modelled from the spec: `MOUSE_BUTTON_RIGHT` is declared in `tusb.h`, which
is not among the sources; bit 1 of the buttons byte of the boot mouse report. -/
def MOUSE_BUTTON_RIGHT : Nat := 2

/-- Modelled from the spec: `MOUSE_BUTTON_MIDDLE` is declared in `tusb.h`, which
is not among the sources; bit 2 of the buttons byte of the boot mouse report. -/
def MOUSE_BUTTON_MIDDLE : Nat := 4

/-- Modelled from the spec: `HID_USAGE_PAGE_DESKTOP` is declared in `tusb.h`,
which is not among the sources; the spec's usage page Desktop, number 1 of the
HID usage tables. -/
def HID_USAGE_PAGE_DESKTOP : Nat := 1

/-- Modelled from the spec: `HID_USAGE_DESKTOP_MOUSE` is declared in `tusb.h`,
which is not among the sources; the spec's usage Mouse, number 2 of the Desktop
page. -/
def HID_USAGE_DESKTOP_MOUSE : Nat := 2

/-- Modelled from the spec: `HID_USAGE_DESKTOP_GAMEPAD` is declared in `tusb.h`,
which is not among the sources; the spec's usage Gamepad, number 5 of the
Desktop page. -/
def HID_USAGE_DESKTOP_GAMEPAD : Nat := 5

/-- Modelled from the spec: `HID_USAGE_DESKTOP_KEYBOARD` is declared in
`tusb.h`, which is not among the sources; the spec's usage Keyboard, number 6 of
the Desktop page. -/
def HID_USAGE_DESKTOP_KEYBOARD : Nat := 6

/-- Modelled from the spec: `hid_keyboard_report_t` is declared in `tusb.h`,
which is not among the sources; the 8-byte boot report of the spec: modifier
bitmask, reserved byte, six keycode slots. -/
structure hid_keyboard_report_t where
  modifier : Nat
  reserved : Nat
  keycode : List Nat
  deriving DecidableEq, Repr

/-- Modelled from the spec: `hid_mouse_report_t` is declared in `tusb.h`, which
is not among the sources; the boot report of the spec: buttons bitmask and the
signed 8-bit deltas x, y and wheel. -/
structure hid_mouse_report_t where
  buttons : Nat
  x : Int
  y : Int
  wheel : Int
  deriving DecidableEq, Repr

/-- Modelled from the spec: `tuh_hid_report_info_t` is declared in `tusb.h`,
which is not among the sources; the spec's ReportDescriptor with report id,
usage and usage page. -/
structure tuh_hid_report_info_t where
  report_id : Nat
  usage : Nat
  usage_page : Nat
  deriving DecidableEq, Repr

/-- The anonymous struct of `hid_info[]` (lines 61-65): a count and the
`report_info[MAX_REPORT]` array. -/
structure hid_info_t where
  report_count : Nat
  report_info : List tuh_hid_report_info_t
  deriving DecidableEq, Repr

/-- The mutable state of the file: the three function-local statics and the
descriptor cache. -/
structure State where
  /-- The `static prev_report` of `process_kbd_report`. -/
  kbd_prev_report : hid_keyboard_report_t
  /-- The `static prev_report` of `process_mouse_report`. -/
  mouse_prev_report : hid_mouse_report_t
  /-- The `static buffer[40]` of `print_report`. -/
  buffer : List Nat
  /-- The global `hid_info[CFG_TUH_HID]`. -/
  hid_info : List hid_info_t
  deriving DecidableEq, Repr

/-- The zero-initialised keyboard report `{0, 0, {0}}`. -/
def kbd_zero : hid_keyboard_report_t := ⟨0, 0, [0, 0, 0, 0, 0, 0]⟩

/-- The zero-initialised mouse report `{0}`. -/
def mouse_zero : hid_mouse_report_t := ⟨0, 0, 0, 0⟩

/-- The state at program start: every static is zero. -/
def State.init (info : List hid_info_t) : State :=
  ⟨kbd_zero, mouse_zero, List.replicate 40 0, info⟩

/-! ## Keyboard (lines 192-244) -/

/-- The loop of `find_key_in_report`: `n` slots remain, starting at slot `i`. -/
def find_key_loop (report : hid_keyboard_report_t) (keycode : Nat) :
    Nat → Nat → Except Fault Bool
  | 0, _ => .ok false
  | n + 1, i => do
      let k ← rd report.keycode i (.keycode_oob i)
      if k = keycode then .ok true else find_key_loop report keycode n (i + 1)

/-- Embedding of `find_key_in_report`: look up a key in the six slots. -/
def find_key_in_report (report : hid_keyboard_report_t) (keycode : Nat) :
    Except Fault Bool :=
  find_key_loop report keycode 6 0

/-- The value of `is_shift` (lines 225-227). -/
def is_shift (report : hid_keyboard_report_t) : Bool :=
  decide (report.modifier &&&
    (KEYBOARD_MODIFIER_LEFTSHIFT ||| KEYBOARD_MODIFIER_RIGHTSHIFT) ≠ 0)

/-- The output calls of lines 230-234 for the character `ch`. -/
def emit_char (ch : Nat) : List Out :=
  Out.putchar ch :: (if ch = 13 then [Out.putchar 10] else [])

/-- The body of the loop of `process_kbd_report` for slot `i` (lines 215-239). -/
def kbd_slot (keycode2ascii : List (Nat × Nat)) (prev report : hid_keyboard_report_t)
    (i : Nat) : Except Fault (List Out) := do
  let k ← rd report.keycode i (.keycode_oob i)
  if k ≠ 0 then
    if (← find_key_in_report prev k) then
      .ok []
    else
      let row ← rd keycode2ascii k (.table_oob k)
      let ch := if is_shift report then row.2 else row.1
      .ok (emit_char ch)
  else
    .ok []

/-- The loop of `process_kbd_report`: `n` slots remain, starting at slot `i`. -/
def kbd_loop (keycode2ascii : List (Nat × Nat)) (prev report : hid_keyboard_report_t) :
    Nat → Nat → Except Fault (List Out)
  | 0, _ => .ok []
  | n + 1, i => do
      let o ← kbd_slot keycode2ascii prev report i
      let rest ← kbd_loop keycode2ascii prev report n (i + 1)
      .ok (o ++ rest)

/-- Embedding of `process_kbd_report`; the table `keycode2ascii[128][2]` is a
parameter because its initialiser `HID_KEYCODE_TO_ASCII` is not in the sources. -/
def process_kbd_report (keycode2ascii : List (Nat × Nat)) (st : State)
    (report : hid_keyboard_report_t) : Except Fault (State × List Out) := do
  let out ← kbd_loop keycode2ascii st.kbd_prev_report report 6 0
  .ok ({ st with kbd_prev_report := report }, out)

/-- Feeding a sequence of keyboard reports, one output list per report. -/
def kbd_feed (keycode2ascii : List (Nat × Nat)) :
    State → List hid_keyboard_report_t → Except Fault (State × List (List Out))
  | st, [] => .ok (st, [])
  | st, r :: rs => do
      let (st1, o) ← process_kbd_report keycode2ascii st r
      let (st2, os) ← kbd_feed keycode2ascii st1 rs
      .ok (st2, o :: os)

/-! ## Mouse (lines 250-304) -/

/-- Embedding of `cursor_movement` with `USE_ANSI_ESCAPE` equal to 0. -/
def cursor_movement (x y wheel : Int) : List Out :=
  [Out.cursor x y wheel]

/-- Embedding of `process_mouse_report`.  The source never assigns to its
static `prev_report`, so the state is returned as it was. -/
def process_mouse_report (st : State) (report : hid_mouse_report_t) :
    State × List Out :=
  let button_changed_mask := (report.buttons ^^^ st.mouse_prev_report.buttons) % 256
  let ind :=
    if button_changed_mask &&& report.buttons ≠ 0 then
      [Out.buttons
        (if report.buttons &&& MOUSE_BUTTON_LEFT ≠ 0 then 'L' else '-')
        (if report.buttons &&& MOUSE_BUTTON_MIDDLE ≠ 0 then 'M' else '-')
        (if report.buttons &&& MOUSE_BUTTON_RIGHT ≠ 0 then 'R' else '-')]
    else []
  (st, ind ++ cursor_movement report.x report.y report.wheel)

/-- Feeding a sequence of mouse reports, one output list per report. -/
def mouse_feed : State → List hid_mouse_report_t → State × List (List Out)
  | st, [] => (st, [])
  | st, r :: rs =>
      let p := process_mouse_report st r
      let q := mouse_feed p.1 rs
      (q.1, p.2 :: q.2)

/-! ## Raw diff printer (lines 355-368) -/

/-- The loop of `print_report`: `n` iterations remain, starting at offset `i`. -/
def print_report_loop (report : List Nat) :
    Nat → Nat → List Nat → Except Fault (List Nat × List Out)
  | 0, _, buffer => .ok (buffer, [])
  | n + 1, i, buffer => do
      let b ← rd buffer i (.buffer_oob i)
      let r ← rd report i (.report_oob i)
      let o1 := if b ≠ r then [Out.pair i r] else []
      let o2 := if i = 20 then [Out.newline] else []
      let (buffer1, rest) ← print_report_loop report n (i + 1) (buffer.set i r)
      .ok (buffer1, o1 ++ o2 ++ rest)

/-- Embedding of `print_report`. -/
def print_report (st : State) (report : List Nat) (len : Nat) :
    Except Fault (State × List Out) := do
  let (buffer1, out) ← print_report_loop report len 0 st.buffer
  .ok ({ st with buffer := buffer1 }, [Out.new_report] ++ out ++ [Out.newline])

/-! ## Generic report (lines 373-445) -/

/-- Sign extension of a byte read through an `int8_t` field. -/
def int8 (b : Nat) : Int :=
  if b % 256 < 128 then (b % 256 : Nat) else ((b % 256 : Nat) : Int) - 256

/-- The pointer cast `(hid_keyboard_report_t const *)report`: the eight bytes
behind the pointer, read as a boot keyboard report.  The decoder reads every
one of them (the last statement copies the whole struct), so fewer than eight
bytes behind the pointer is a fault. -/
def kbd_report_of_bytes (report : List Nat) : Except Fault hid_keyboard_report_t :=
  match report with
  | m :: r :: k0 :: k1 :: k2 :: k3 :: k4 :: k5 :: _ => .ok ⟨m, r, [k0, k1, k2, k3, k4, k5]⟩
  | _ => .error (.report_oob report.length)

/-- The pointer cast `(hid_mouse_report_t const *)report`: the bytes behind the
pointer, read as a boot mouse report.  The decoder reads the fields buttons, x,
y and wheel, so fewer than four bytes behind the pointer is a fault. -/
def mouse_report_of_bytes (report : List Nat) : Except Fault hid_mouse_report_t :=
  match report with
  | b :: x :: y :: w :: _ => .ok ⟨b, int8 x, int8 y, int8 w⟩
  | _ => .error (.report_oob report.length)

/-- The scan of lines 393-400: the first index `j` with `i ≤ j < i + n` whose
descriptor has the report id `rpt_id`. -/
def find_report_id_loop (rpt_info_arr : List tuh_hid_report_info_t) (rpt_id : Nat) :
    Nat → Nat → Except Fault (Option Nat)
  | 0, _ => .ok none
  | n + 1, i => do
      let d ← rd rpt_info_arr i (.info_oob i)
      if rpt_id = d.report_id then .ok (some i)
      else find_report_id_loop rpt_info_arr rpt_id n (i + 1)

/-- Lines 378-404 of `process_generic_report`: the selected descriptor (as an
index into `report_info`, `none` for the `NULL` pointer) together with the
report pointer and the length as they stand at line 406. -/
def select_report_info (info : hid_info_t) (report : List Nat) (len : Nat) :
    Except Fault (Option Nat × List Nat × Nat) := do
  let simple ←
    if info.report_count = 1 then do
      let d ← rd info.report_info 0 (.info_oob 0)
      .ok (decide (d.report_id = 0))
    else .ok false
  if simple then
    .ok (some 0, report, len)
  else do
    let rpt_id ← rd report 0 (.report_oob 0)
    let sel ← find_report_id_loop info.report_info rpt_id info.report_count 0
    .ok (sel, report.drop 1, (len + 65535) % 65536)

/-- Lines 420-444 of `process_generic_report`: the decoder chosen by the usage
page and usage of the selected descriptor. -/
def dispatch_usage (keycode2ascii : List (Nat × Nat)) (st : State)
    (rpt_info : tuh_hid_report_info_t) (report : List Nat) (len : Nat) :
    Except Fault (State × List Out) :=
  if rpt_info.usage_page = HID_USAGE_PAGE_DESKTOP then
    if rpt_info.usage = HID_USAGE_DESKTOP_KEYBOARD then do
      let r ← kbd_report_of_bytes report
      process_kbd_report keycode2ascii st r
    else if rpt_info.usage = HID_USAGE_DESKTOP_MOUSE then do
      let r ← mouse_report_of_bytes report
      .ok (process_mouse_report st r)
    else if rpt_info.usage = HID_USAGE_DESKTOP_GAMEPAD then
      print_report st report len
    else
      .ok (st, [])
  else
    .ok (st, [])

/-- Embedding of `process_generic_report`. -/
def process_generic_report (keycode2ascii : List (Nat × Nat)) (st : State)
    (dev_addr inst : Nat) (report : List Nat) (len : Nat) :
    Except Fault (State × List Out) := do
  let _ := dev_addr
  let info ← rd st.hid_info inst (.info_oob inst)
  let (sel, report1, len1) ← select_report_info info report len
  match sel with
  | none => .ok (st, [Out.not_found])
  | some i => do
      let rpt_info ← rd info.report_info i (.info_oob i)
      dispatch_usage keycode2ascii st rpt_info report1 len1

/-- A 128-entry table that agrees with the spec's scenario: entry 4 is
`('a','A')`, entry 5 is `('b','B')`, entry 40 is the carriage return. -/
def sample_keycode2ascii : List (Nat × Nat) :=
  List.replicate 4 (0, 0) ++ [(97, 65), (98, 66)] ++ List.replicate 34 (0, 0)
    ++ [(13, 13)] ++ List.replicate 87 (0, 0)

/-- The output the edge rule prescribes for slot `i`: the table character of a
nonzero key absent from the previous report, nothing otherwise. -/
def slot_emission (keycode2ascii : List (Nat × Nat)) (prev report : hid_keyboard_report_t)
    (i : Nat) : List Out :=
  let k := report.keycode.getD i 0
  if k ≠ 0 ∧ k ∉ prev.keycode then
    emit_char (if is_shift report then (keycode2ascii.getD k (0, 0)).2
      else (keycode2ascii.getD k (0, 0)).1)
  else []

/-- Three keyboard reports: `a` pressed, `a` held with left shift while `b` is
pressed, everything released. -/
def sample_kbd_reports : List hid_keyboard_report_t :=
  [⟨0, 0, [4, 0, 0, 0, 0, 0]⟩, ⟨2, 0, [4, 5, 0, 0, 0, 0]⟩, ⟨0, 0, [0, 0, 0, 0, 0, 0]⟩]

/-- The output calls the loop of `print_report` makes for the offsets
`i, ..., i + n - 1`, in terms of the buffer as it was before the loop. -/
def diff_events (buffer report : List Nat) : Nat → Nat → List Out
  | 0, _ => []
  | n + 1, i =>
      (if buffer.getD i 0 ≠ report.getD i 0 then [Out.pair i (report.getD i 0)] else [])
        ++ (if i = 20 then [Out.newline] else [])
        ++ diff_events buffer report n (i + 1)

/-- The offset and value of an `offset:value` pair, nothing for other output. -/
def Out.pair? : Out → Option (Nat × Nat)
  | .pair i v => some (i, v)
  | _ => none

/-- The `offset:value` pairs among a sequence of output calls, in order. -/
def pairs_of (os : List Out) : List (Nat × Nat) :=
  os.filterMap Out.pair?

/-! ## Auxiliary lemmas -/

theorem rd_of_lt {α : Type} (xs : List α) (i : Nat) (f : Fault) (h : i < xs.length) :
    rd xs i f = .ok xs[i] := by
  simp [rd, List.getElem?_eq_getElem h]

theorem rd_of_some {α : Type} (xs : List α) (i : Nat) (f : Fault) (x : α)
    (h : xs[i]? = some x) : rd xs i f = .ok x := by
  simp [rd, h]

theorem rd_of_le {α : Type} (xs : List α) (i : Nat) (f : Fault) (h : xs.length ≤ i) :
    rd xs i f = .error f := by
  simp [rd, List.getElem?_eq_none h]

theorem length_six {α : Type} (l : List α) (h : l.length = 6) :
    ∃ a b c d e g, l = [a, b, c, d, e, g] := by
  match l, h with
  | [a, b, c, d, e, g], _ => exact ⟨a, b, c, d, e, g, rfl⟩

theorem find_key_in_report_eq (report : hid_keyboard_report_t) (k : Nat)
    (h : report.keycode.length = 6) :
    find_key_in_report report k = .ok (decide (k ∈ report.keycode)) := by
  obtain ⟨a, b, c, d, e, g, hl⟩ := length_six _ h
  simp only [find_key_in_report, find_key_loop, hl, rd, bind, Except.bind]
  simp
  split_ifs <;> simp_all [eq_comm]

theorem kbd_slot_eq (tbl : List (Nat × Nat)) (prev report : hid_keyboard_report_t)
    (i k : Nat) (hp : prev.keycode.length = 6) (hk : report.keycode[i]? = some k)
    (hlt : k < tbl.length) :
    kbd_slot tbl prev report i = .ok (slot_emission tbl prev report i) := by
  have hrow : tbl[k]? = some (tbl.getD k (0, 0)) := by
    simp [List.getD, List.getElem?_eq_getElem hlt]
  have hg : report.keycode.getD i 0 = k := by simp [List.getD, hk]
  simp only [kbd_slot, slot_emission, hg, rd, hk, find_key_in_report_eq prev _ hp, hrow,
    bind, Except.bind]
  by_cases h0 : k = 0
  · simp [h0]
  · by_cases hm : k ∈ prev.keycode
    · simp [h0, hm]
    · simp [h0, hm]

theorem kbd_loop_six (tbl : List (Nat × Nat)) (prev report : hid_keyboard_report_t)
    (hp : prev.keycode.length = 6) (hr : report.keycode.length = 6)
    (hlt : ∀ k ∈ report.keycode, k < tbl.length) :
    kbd_loop tbl prev report 6 0
      = .ok ((List.range 6).map (slot_emission tbl prev report)).flatten := by
  have hs : ∀ i, i < 6 →
      kbd_slot tbl prev report i = .ok (slot_emission tbl prev report i) := by
    intro i hi
    have hi2 : i < report.keycode.length := by omega
    exact kbd_slot_eq tbl prev report i report.keycode[i] hp
      (List.getElem?_eq_getElem hi2) (hlt _ (List.getElem_mem _))
  simp only [kbd_loop, hs 0 (by omega), hs 1 (by omega), hs 2 (by omega), hs 3 (by omega),
    hs 4 (by omega), hs 5 (by omega), bind, Except.bind]
  simp [List.range, List.range.loop]

theorem process_kbd_report_eq (tbl : List (Nat × Nat)) (st : State)
    (report : hid_keyboard_report_t)
    (hp : st.kbd_prev_report.keycode.length = 6) (hr : report.keycode.length = 6)
    (hlt : ∀ k ∈ report.keycode, k < tbl.length) :
    process_kbd_report tbl st report
      = .ok ({ st with kbd_prev_report := report },
          ((List.range 6).map (slot_emission tbl st.kbd_prev_report report)).flatten) := by
  simp only [process_kbd_report, kbd_loop_six tbl _ report hp hr hlt, bind, Except.bind]

theorem kbd_feed_eq (tbl : List (Nat × Nat)) :
    ∀ (rs : List hid_keyboard_report_t) (st : State),
      st.kbd_prev_report.keycode.length = 6 →
      (∀ r ∈ rs, r.keycode.length = 6 ∧ ∀ k ∈ r.keycode, k < tbl.length) →
      ∃ st1 outs, kbd_feed tbl st rs = .ok (st1, outs) ∧ outs.length = rs.length ∧
        ∀ (n : Nat) (r prev : hid_keyboard_report_t), rs[n]? = some r →
          (st.kbd_prev_report :: rs)[n]? = some prev →
          outs[n]? = some ((List.range 6).map (slot_emission tbl prev r)).flatten := by
  intro rs
  induction rs with
  | nil =>
      intro st _ _
      exact ⟨st, [], rfl, rfl, by intro n r prev h; simp at h⟩
  | cons r rs ih =>
      intro st hp hrs
      have hr := hrs r (List.mem_cons_self _ _)
      have hrest : ∀ q ∈ rs, q.keycode.length = 6 ∧ ∀ k ∈ q.keycode, k < tbl.length :=
        fun q hq => hrs q (List.mem_cons_of_mem _ hq)
      obtain ⟨st2, os, hfeed, hlen, hall⟩ :=
        ih { st with kbd_prev_report := r } hr.1 hrest
      refine ⟨st2, ((List.range 6).map (slot_emission tbl st.kbd_prev_report r)).flatten :: os,
        ?_, by simp [hlen], ?_⟩
      · simp only [kbd_feed, process_kbd_report_eq tbl st r hp hr.1 hr.2, hfeed, bind,
          Except.bind]
      · intro n q prev hq hprev
        cases n with
        | zero =>
            simp at hq hprev
            subst hq; subst hprev
            simp
        | succ m =>
            simp only [List.getElem?_cons_succ] at hq hprev ⊢
            exact hall m q prev hq hprev

theorem slot_emission_ne_nil (tbl : List (Nat × Nat)) (prev report : hid_keyboard_report_t)
    (i k : Nat) (hk : report.keycode[i]? = some k) :
    slot_emission tbl prev report i ≠ [] ↔ (k ≠ 0 ∧ k ∉ prev.keycode) := by
  have hg : report.keycode.getD i 0 = k := by simp [List.getD, hk]
  simp only [slot_emission, hg, emit_char]
  by_cases h : k ≠ 0 ∧ k ∉ prev.keycode
  · simp [h]
  · simp [h]

theorem nat_or_eq_zero (a b : Nat) : a ||| b = 0 ↔ a = 0 ∧ b = 0 := by
  constructor
  · intro h
    have hbit : ∀ i, (a.testBit i || b.testBit i) = false := by
      intro i
      rw [← Nat.testBit_or, h]
      simp
    constructor
    · apply Nat.zero_of_testBit_eq_false
      intro i
      have := hbit i
      simp at this
      exact this.1
    · apply Nat.zero_of_testBit_eq_false
      intro i
      have := hbit i
      simp at this
      exact this.2
  · rintro ⟨rfl, rfl⟩
    rfl

theorem is_shift_iff (report : hid_keyboard_report_t) :
    is_shift report = true ↔
      (report.modifier &&& KEYBOARD_MODIFIER_LEFTSHIFT ≠ 0 ∨
        report.modifier &&& KEYBOARD_MODIFIER_RIGHTSHIFT ≠ 0) := by
  simp only [is_shift, decide_eq_true_eq, Nat.and_or_distrib_left, ne_eq, nat_or_eq_zero]
  tauto

theorem find_report_id_loop_none (arr : List tuh_hid_report_info_t) (b : Nat) :
    ∀ (n i : Nat), i + n ≤ arr.length →
      (∀ (j : Nat) (d : tuh_hid_report_info_t), i ≤ j → j < i + n → arr[j]? = some d →
        d.report_id ≠ b) →
      find_report_id_loop arr b n i = .ok none := by
  intro n
  induction n with
  | zero => intro i _ _; rfl
  | succ n ih =>
      intro i hlen hne
      have hi : i < arr.length := by omega
      have hd := hne i arr[i] (le_refl _) (by omega) (List.getElem?_eq_getElem hi)
      have hrec := ih (i + 1) (by omega)
        (fun j d h1 h2 h3 => hne j d (by omega) (by omega) h3)
      simp only [find_report_id_loop, rd_of_lt arr i _ hi, bind, Except.bind, hrec]
      rw [if_neg (fun h => hd h.symm)]

theorem find_report_id_loop_first (arr : List tuh_hid_report_info_t) (b : Nat) :
    ∀ (n i j : Nat) (d : tuh_hid_report_info_t), i ≤ j → j < i + n → arr[j]? = some d →
      d.report_id = b →
      (∀ (q : Nat) (e : tuh_hid_report_info_t), i ≤ q → q < j → arr[q]? = some e →
        e.report_id ≠ b) →
      find_report_id_loop arr b n i = .ok (some j) := by
  intro n
  induction n with
  | zero => intro i j d h1 h2; omega
  | succ n ih =>
      intro i j d h1 h2 hd hid hfirst
      have hj : j < arr.length := (List.getElem?_eq_some_iff.mp hd).1
      have hi : i < arr.length := by omega
      by_cases hij : i = j
      · subst hij
        have hdi : arr[i] = d := by
          have := List.getElem?_eq_getElem hi
          rw [hd] at this
          exact (Option.some.inj this).symm
        simp only [find_report_id_loop, rd_of_lt arr i _ hi, bind, Except.bind, hdi, hid,
          if_true]
      · have hne := hfirst i arr[i] (le_refl _) (by omega) (List.getElem?_eq_getElem hi)
        have hrec := ih (i + 1) j d (by omega) (by omega) hd hid
          (fun q e h3 h4 h5 => hfirst q e (by omega) h4 h5)
        simp only [find_report_id_loop, rd_of_lt arr i _ hi, bind, Except.bind, hrec]
        rw [if_neg (fun h => hne h.symm)]

theorem select_report_info_simple (info : hid_info_t) (report : List Nat) (len : Nat)
    (d : tuh_hid_report_info_t) (hc : info.report_count = 1)
    (hd : info.report_info[0]? = some d) (hid : d.report_id = 0) :
    select_report_info info report len = .ok (some 0, report, len) := by
  simp [select_report_info, hc, rd, hd, hid, bind, Except.bind]

theorem select_report_info_composite (info : hid_info_t) (b : Nat) (rest : List Nat)
    (len : Nat) (hcount : info.report_count ≤ info.report_info.length)
    (hns : ¬ (info.report_count = 1 ∧
      ∃ d0, info.report_info[0]? = some d0 ∧ d0.report_id = 0)) :
    select_report_info info (b :: rest) len
      = (find_report_id_loop info.report_info b info.report_count 0).map
          (fun sel => (sel, rest, (len + 65535) % 65536)) := by
  by_cases hc : info.report_count = 1
  · have h0 : 0 < info.report_info.length := by omega
    have hne : ¬ info.report_info[0].report_id = 0 := fun h =>
      hns ⟨hc, info.report_info[0], List.getElem?_eq_getElem h0, h⟩
    simp only [select_report_info, hc, if_true, rd_of_lt _ 0 _ h0, bind, Except.bind, hne,
      decide_False]
    simp only [rd, List.getElem?_cons_zero, List.drop_succ_cons, List.drop_zero]
    cases find_report_id_loop info.report_info b 1 0 <;> rfl
  · simp only [select_report_info, hc, if_false, bind, Except.bind]
    simp only [rd, List.getElem?_cons_zero, List.drop_succ_cons, List.drop_zero]
    cases find_report_id_loop info.report_info b info.report_count 0 <;> rfl

theorem diff_events_set (report : List Nat) (j v : Nat) :
    ∀ (n i : Nat) (buffer : List Nat), j < i →
      diff_events (buffer.set j v) report n i = diff_events buffer report n i := by
  intro n
  induction n with
  | zero => intro i buffer _; rfl
  | succ n ih =>
      intro i buffer hji
      have hne : j ≠ i := by omega
      have hg : (buffer.set j v).getD i 0 = buffer.getD i 0 := by
        simp [List.getD_eq_getElem?_getD, List.getElem?_set_ne hne]
      simp only [diff_events, hg, ih (i + 1) buffer (by omega)]

theorem print_report_loop_eq (report : List Nat) :
    ∀ (n i : Nat) (buffer : List Nat), i + n ≤ buffer.length → i + n ≤ report.length →
      ∃ buffer1, print_report_loop report n i buffer
          = .ok (buffer1, diff_events buffer report n i) ∧
        buffer1.length = buffer.length ∧
        ∀ j : Nat, buffer1[j]? = if i ≤ j ∧ j < i + n then report[j]? else buffer[j]? := by
  intro n
  induction n with
  | zero =>
      intro i buffer _ _
      refine ⟨buffer, rfl, rfl, ?_⟩
      intro j
      have : ¬ (i ≤ j ∧ j < i + 0) := by omega
      rw [if_neg this]
  | succ n ih =>
      intro i buffer hb hr
      have hib : i < buffer.length := by omega
      have hir : i < report.length := by omega
      obtain ⟨buffer1, hloop, hlen, hget⟩ :=
        ih (i + 1) (buffer.set i report[i]) (by simp; omega) (by omega)
      refine ⟨buffer1, ?_, by simpa using hlen, ?_⟩
      · have hbg : buffer.getD i 0 = buffer[i] := by
          simp [List.getD, List.getElem?_eq_getElem hib]
        have hrg : report.getD i 0 = report[i] := by
          simp [List.getD, List.getElem?_eq_getElem hir]
        simp only [print_report_loop, rd_of_lt buffer i _ hib, rd_of_lt report i _ hir,
          hloop, bind, Except.bind, diff_events, hbg, hrg,
          diff_events_set report i report[i] n (i + 1) buffer (by omega)]
      · intro j
        rw [hget j]
        by_cases hj : i = j
        · subst hj
          have h1 : ¬ (i + 1 ≤ i ∧ i < i + 1 + n) := by omega
          have h2 : i ≤ i ∧ i < i + (n + 1) := by omega
          simp [h1, h2, List.getElem?_eq_getElem hir, List.getElem?_set_self hib]
        · by_cases hin : i + 1 ≤ j ∧ j < i + 1 + n
          · have h2 : i ≤ j ∧ j < i + (n + 1) := by omega
            simp [hin, h2]
          · have h2 : ¬ (i ≤ j ∧ j < i + (n + 1)) := by omega
            simp [hin, h2, List.getElem?_set_ne hj]

theorem pairs_of_diff_events (buffer report : List Nat) :
    ∀ (n i : Nat), pairs_of (diff_events buffer report n i)
      = (List.range' i n).filterMap (fun j =>
          if report.getD j 0 ≠ buffer.getD j 0 then some (j, report.getD j 0) else none) := by
  intro n
  induction n with
  | zero => intro i; rfl
  | succ n ih =>
      intro i
      have hrec := ih (i + 1)
      simp only [pairs_of] at hrec
      have h20 : List.filterMap Out.pair? (if i = 20 then [Out.newline] else []) = [] := by
        by_cases h : i = 20
        · simp [h, Out.pair?]
        · simp [h]
      by_cases hne : buffer.getD i 0 = report.getD i 0
      · have e1 : (if buffer.getD i 0 ≠ report.getD i 0
            then [Out.pair i (report.getD i 0)] else []) = [] := if_neg (not_not.mpr hne)
        have e2 : (if report.getD i 0 ≠ buffer.getD i 0
            then some (i, report.getD i 0) else none) = none := if_neg (not_not.mpr hne.symm)
        simp only [pairs_of, diff_events, List.range'_succ, List.filterMap_append,
          List.filterMap_cons, hrec, e1, e2, h20, List.filterMap_nil, List.nil_append]
      · have e1 : (if buffer.getD i 0 ≠ report.getD i 0
            then [Out.pair i (report.getD i 0)] else []) = [Out.pair i (report.getD i 0)] :=
          if_pos hne
        have e2 : (if report.getD i 0 ≠ buffer.getD i 0
            then some (i, report.getD i 0) else none) = some (i, report.getD i 0) :=
          if_pos (fun h => hne h.symm)
        simp only [pairs_of, diff_events, List.range'_succ, List.filterMap_append,
          List.filterMap_cons, hrec, e1, e2, h20, List.filterMap_nil, List.nil_append,
          Out.pair?, List.append_nil, List.singleton_append]

theorem print_report_eq (st : State) (report : List Nat) (len : Nat)
    (hbuf : len ≤ st.buffer.length) (hrep : len ≤ report.length) :
    ∃ buffer1, print_report st report len
        = .ok ({ st with buffer := buffer1 },
            [Out.new_report] ++ diff_events st.buffer report len 0 ++ [Out.newline]) ∧
      buffer1.length = st.buffer.length ∧
      ∀ j : Nat, buffer1[j]? = if j < len then report[j]? else st.buffer[j]? := by
  obtain ⟨buffer1, hloop, hlen, hget⟩ :=
    print_report_loop_eq report len 0 st.buffer (by omega) (by omega)
  refine ⟨buffer1, ?_, hlen, ?_⟩
  · simp only [print_report, hloop, bind, Except.bind]
  · intro j
    rw [hget j]
    simp

theorem pairs_of_print (buffer report : List Nat) (len : Nat) :
    pairs_of ([Out.new_report] ++ diff_events buffer report len 0 ++ [Out.newline])
      = (List.range len).filterMap (fun i =>
          if report.getD i 0 ≠ buffer.getD i 0 then some (i, report.getD i 0) else none) := by
  have h := pairs_of_diff_events buffer report len 0
  simp only [pairs_of] at h
  simp only [pairs_of, List.filterMap_append, h, List.range_eq_range']
  simp [Out.pair?]

/-! ## The claims -/

/-- C1: feeding any sequence of keyboard boot reports with all keycodes below
128 to `process_kbd_report`, starting from the all-zero state, succeeds, and the
output of each report is the concatenation of the outputs of its six slots,
where a slot emits something exactly when its keycode is nonzero and occurs in
none of the six slots of the report processed immediately before (the zero
report before the first one).  On the keys `[4,0,0,0,0,0]`, `[4,0,0,0,0,0]`,
`[5,4,0,0,0,0]` without modifiers, with table entries 4 and 5 mapping to `a`
and `b`, the output is `a`, then nothing, then `b`. -/
theorem kbd_edge_detection (tbl : List (Nat × Nat)) (info : List hid_info_t)
    (rs : List hid_keyboard_report_t) (htbl : tbl.length = 128)
    (hrs : ∀ r ∈ rs, r.keycode.length = 6 ∧ ∀ k ∈ r.keycode, k < 128) :
    (∃ st outs, kbd_feed tbl (State.init info) rs = .ok (st, outs) ∧
      outs.length = rs.length ∧
      ∀ (n : Nat) (r prev : hid_keyboard_report_t), rs[n]? = some r →
        (kbd_zero :: rs)[n]? = some prev →
        ∃ slots : List (List Out), slots.length = 6 ∧ outs[n]? = some slots.flatten ∧
          ∀ (i k : Nat), r.keycode[i]? = some k →
            ∃ o, slots[i]? = some o ∧ kbd_slot tbl prev r i = .ok o ∧
              (o ≠ [] ↔ (k ≠ 0 ∧ k ∉ prev.keycode)))
    ∧ (∀ a b : Nat, tbl[4]? = some (97, a) → tbl[5]? = some (98, b) →
        ∃ st outs, kbd_feed tbl (State.init info)
            [⟨0, 0, [4, 0, 0, 0, 0, 0]⟩, ⟨0, 0, [4, 0, 0, 0, 0, 0]⟩,
              ⟨0, 0, [5, 4, 0, 0, 0, 0]⟩] = .ok (st, outs) ∧
          outs = [[Out.putchar 97], [], [Out.putchar 98]] ∧
          outs.map render = ["a", "", "b"]) := by
  constructor
  · have hrs2 : ∀ r ∈ rs, r.keycode.length = 6 ∧ ∀ k ∈ r.keycode, k < tbl.length := by
      simpa [htbl] using hrs
    obtain ⟨st1, outs, hfeed, hlen, hall⟩ := kbd_feed_eq tbl rs (State.init info) rfl hrs2
    refine ⟨st1, outs, hfeed, hlen, ?_⟩
    intro n r prev hr hprev
    have hrmem : r ∈ rs := List.getElem?_mem hr
    have hpmem : prev ∈ kbd_zero :: rs := List.getElem?_mem hprev
    have hplen : prev.keycode.length = 6 := by
      rcases List.mem_cons.mp hpmem with h | h
      · subst h; rfl
      · exact (hrs2 prev h).1
    refine ⟨(List.range 6).map (slot_emission tbl prev r), by simp, hall n r prev hr hprev, ?_⟩
    intro i k hk
    have hi : i < 6 := by
      have := (List.getElem?_eq_some_iff.mp hk).1
      have h6 := (hrs2 r hrmem).1
      omega
    have hkmem : k ∈ r.keycode := List.getElem?_mem hk
    refine ⟨slot_emission tbl prev r i, ?_, ?_, ?_⟩
    · simp [List.getElem?_map, List.getElem?_range hi]
    · exact kbd_slot_eq tbl prev r i k hplen hk ((hrs2 r hrmem).2 k hkmem)
    · exact slot_emission_ne_nil tbl prev r i k hk
  · intro a b h4 h5
    refine ⟨{ State.init info with kbd_prev_report := ⟨0, 0, [5, 4, 0, 0, 0, 0]⟩ },
      [[Out.putchar 97], [], [Out.putchar 98]], ?_, rfl, ?_⟩
    · simp [kbd_feed, process_kbd_report, kbd_loop, kbd_slot, find_key_in_report,
        find_key_loop, rd, h4, h5, is_shift, emit_char, State.init, kbd_zero, bind,
        Except.bind]
    · decide

/-- Witness of C1 on the sample table and three sample reports. -/
theorem kbd_edge_detection_witness :
    (sample_keycode2ascii.length = 128 ∧
      ∀ r ∈ sample_kbd_reports, r.keycode.length = 6 ∧ ∀ k ∈ r.keycode, k < 128) ∧
    ((∃ st outs, kbd_feed sample_keycode2ascii (State.init []) sample_kbd_reports
          = .ok (st, outs) ∧
        outs.length = sample_kbd_reports.length ∧
        ∀ (n : Nat) (r prev : hid_keyboard_report_t), sample_kbd_reports[n]? = some r →
          (kbd_zero :: sample_kbd_reports)[n]? = some prev →
          ∃ slots : List (List Out), slots.length = 6 ∧ outs[n]? = some slots.flatten ∧
            ∀ (i k : Nat), r.keycode[i]? = some k →
              ∃ o, slots[i]? = some o ∧ kbd_slot sample_keycode2ascii prev r i = .ok o ∧
                (o ≠ [] ↔ (k ≠ 0 ∧ k ∉ prev.keycode)))
      ∧ (∀ a b : Nat, sample_keycode2ascii[4]? = some (97, a) →
          sample_keycode2ascii[5]? = some (98, b) →
          ∃ st outs, kbd_feed sample_keycode2ascii (State.init [])
              [⟨0, 0, [4, 0, 0, 0, 0, 0]⟩, ⟨0, 0, [4, 0, 0, 0, 0, 0]⟩,
                ⟨0, 0, [5, 4, 0, 0, 0, 0]⟩] = .ok (st, outs) ∧
            outs = [[Out.putchar 97], [], [Out.putchar 98]] ∧
            outs.map render = ["a", "", "b"])) :=
  ⟨⟨rfl, by decide⟩,
    kbd_edge_detection sample_keycode2ascii [] sample_kbd_reports rfl (by decide)⟩

/-- C2: for a freshly pressed keycode `k < 128` in slot `i` of a keyboard
report (nonzero, absent from the six slots of the previous report), the slot's
output is the call `putchar(ch)` (followed by `putchar` of a line feed when `ch`
is the carriage return), where `ch` is `keycode2ascii[k][1]` when the left-shift
or the right-shift bit of the modifier byte is set and `keycode2ascii[k][0]`
otherwise.  The output of `process_kbd_report` is the concatenation of the six
slot outputs, each the result of the loop body for its slot, with this one at
position `i`; and replacing the modifier byte by one with the same two shift
bits changes nothing. -/
theorem kbd_shift_selection (tbl : List (Nat × Nat)) (prev report : hid_keyboard_report_t)
    (i k : Nat) (htbl : tbl.length = 128) (hp : prev.keycode.length = 6)
    (hk : report.keycode[i]? = some k) (h0 : k ≠ 0) (hfresh : k ∉ prev.keycode)
    (hlt : k < 128) :
    ∃ (row : Nat × Nat) (ch : Nat), tbl[k]? = some row ∧
      ch = (if report.modifier &&& KEYBOARD_MODIFIER_LEFTSHIFT ≠ 0 ∨
                report.modifier &&& KEYBOARD_MODIFIER_RIGHTSHIFT ≠ 0
              then row.2 else row.1) ∧
      kbd_slot tbl prev report i
        = .ok (Out.putchar ch :: (if ch = 13 then [Out.putchar 10] else [])) ∧
      (∀ st : State, st.kbd_prev_report = prev → report.keycode.length = 6 →
        (∀ q ∈ report.keycode, q < 128) →
        ∃ (slots : List (List Out)),
          process_kbd_report tbl st report
            = .ok ({ st with kbd_prev_report := report }, slots.flatten) ∧
          slots.length = 6 ∧
          (∀ q : Nat, q < 6 → ∃ o, slots[q]? = some o ∧ kbd_slot tbl prev report q = .ok o) ∧
          slots[i]? = some (Out.putchar ch :: (if ch = 13 then [Out.putchar 10] else []))) ∧
      (∀ m : Nat,
        m &&& KEYBOARD_MODIFIER_LEFTSHIFT = report.modifier &&& KEYBOARD_MODIFIER_LEFTSHIFT →
        m &&& KEYBOARD_MODIFIER_RIGHTSHIFT
          = report.modifier &&& KEYBOARD_MODIFIER_RIGHTSHIFT →
        kbd_slot tbl prev { report with modifier := m } i
          = .ok (Out.putchar ch :: (if ch = 13 then [Out.putchar 10] else []))) := by
  have hkl : k < tbl.length := by omega
  have hg : report.keycode.getD i 0 = k := by simp [List.getD, hk]
  have hrow : tbl.getD k (0, 0) = tbl[k] := by
    simp [List.getD, List.getElem?_eq_getElem hkl]
  have hem : ∀ r : hid_keyboard_report_t, r.keycode = report.keycode →
      slot_emission tbl prev r i = emit_char
        (if r.modifier &&& KEYBOARD_MODIFIER_LEFTSHIFT ≠ 0 ∨
            r.modifier &&& KEYBOARD_MODIFIER_RIGHTSHIFT ≠ 0
          then tbl[k].2 else tbl[k].1) := by
    intro r hr
    have hs := is_shift_iff r
    by_cases h : r.modifier &&& KEYBOARD_MODIFIER_LEFTSHIFT ≠ 0 ∨
        r.modifier &&& KEYBOARD_MODIFIER_RIGHTSHIFT ≠ 0
    · simp only [slot_emission, hr, hg, hrow, hs.mpr h, if_pos h]
      simp [h0, hfresh]
    · have hf : is_shift r = false := by
        cases hb : is_shift r
        · rfl
        · exact absurd (hs.mp hb) h
      simp only [slot_emission, hr, hg, hrow, hf, if_neg h]
      simp [h0, hfresh]
  refine ⟨tbl[k], _, List.getElem?_eq_getElem hkl, rfl, ?_, ?_, ?_⟩
  · rw [kbd_slot_eq tbl prev report i k hp hk hkl, hem report rfl]
    rfl
  · intro st hst hlen hall
    have hall2 : ∀ q ∈ report.keycode, q < tbl.length := by
      intro q hq
      have := hall q hq
      omega
    have hi : i < 6 := by
      have := (List.getElem?_eq_some_iff.mp hk).1
      omega
    refine ⟨(List.range 6).map (slot_emission tbl prev report), ?_, by simp, ?_, ?_⟩
    · rw [process_kbd_report_eq tbl st report (hst ▸ hp) hlen hall2, hst]
    · intro q hq
      have hq2 : q < report.keycode.length := by omega
      refine ⟨slot_emission tbl prev report q, ?_, ?_⟩
      · simp [List.getElem?_map, List.getElem?_range hq]
      · exact kbd_slot_eq tbl prev report q report.keycode[q] hp
          (List.getElem?_eq_getElem hq2) (hall2 _ (List.getElem_mem _))
    · simp only [List.getElem?_map, List.getElem?_range hi, Option.map_some', hem report rfl]
      rfl
  · intro m hl hr
    rw [kbd_slot_eq tbl prev { report with modifier := m } i k hp hk hkl,
      hem { report with modifier := m } rfl]
    simp only [hl, hr]
    rfl

/-- Witness of C2: `b` freshly pressed with right shift held while `a` is held;
the slot prints `B` (66), the second column of row 5. -/
theorem kbd_shift_selection_witness :
    (sample_keycode2ascii.length = 128 ∧ [4, 0, 0, 0, 0, 0].length = 6 ∧
      [4, 5, 0, 0, 0, 0][1]? = some 5 ∧ 5 ≠ 0 ∧ 5 ∉ [4, 0, 0, 0, 0, 0] ∧ 5 < 128) ∧
    ∃ (row : Nat × Nat) (ch : Nat), sample_keycode2ascii[5]? = some row ∧
      ch = (if 32 &&& KEYBOARD_MODIFIER_LEFTSHIFT ≠ 0 ∨ 32 &&& KEYBOARD_MODIFIER_RIGHTSHIFT ≠ 0
              then row.2 else row.1) ∧
      kbd_slot sample_keycode2ascii ⟨0, 0, [4, 0, 0, 0, 0, 0]⟩ ⟨32, 0, [4, 5, 0, 0, 0, 0]⟩ 1
        = .ok (Out.putchar ch :: (if ch = 13 then [Out.putchar 10] else [])) ∧
      (∀ st : State, st.kbd_prev_report = ⟨0, 0, [4, 0, 0, 0, 0, 0]⟩ →
        [4, 5, 0, 0, 0, 0].length = 6 →
        (∀ q ∈ [4, 5, 0, 0, 0, 0], q < 128) →
        ∃ (slots : List (List Out)),
          process_kbd_report sample_keycode2ascii st ⟨32, 0, [4, 5, 0, 0, 0, 0]⟩
            = .ok ({ st with kbd_prev_report := ⟨32, 0, [4, 5, 0, 0, 0, 0]⟩ },
                slots.flatten) ∧
          slots.length = 6 ∧
          (∀ q : Nat, q < 6 → ∃ o, slots[q]? = some o ∧
            kbd_slot sample_keycode2ascii ⟨0, 0, [4, 0, 0, 0, 0, 0]⟩
              ⟨32, 0, [4, 5, 0, 0, 0, 0]⟩ q = .ok o) ∧
          slots[1]? = some (Out.putchar ch :: (if ch = 13 then [Out.putchar 10] else []))) ∧
      (∀ m : Nat,
        m &&& KEYBOARD_MODIFIER_LEFTSHIFT = 32 &&& KEYBOARD_MODIFIER_LEFTSHIFT →
        m &&& KEYBOARD_MODIFIER_RIGHTSHIFT = 32 &&& KEYBOARD_MODIFIER_RIGHTSHIFT →
        kbd_slot sample_keycode2ascii ⟨0, 0, [4, 0, 0, 0, 0, 0]⟩ ⟨m, 0, [4, 5, 0, 0, 0, 0]⟩ 1
          = .ok (Out.putchar ch :: (if ch = 13 then [Out.putchar 10] else []))) :=
  ⟨⟨rfl, rfl, rfl, by decide, by decide, by decide⟩,
    kbd_shift_selection sample_keycode2ascii ⟨0, 0, [4, 0, 0, 0, 0, 0]⟩
      ⟨32, 0, [4, 5, 0, 0, 0, 0]⟩ 1 5 rfl rfl rfl (by decide) (by decide) (by decide)⟩

/-- C3 (evaluation of the code): `process_mouse_report` never stores the
report it has processed, so its `prev_report` stays zero for ever: the state
comes back unchanged from every call, and two equal reports with the left
button down both print the indicator, although `(buttons XOR previous buttons) AND buttons` is
zero for the second one.  The scenario of the claim itself comes out as stated. -/
theorem mouse_prev_report_never_stored :
    (∀ (st : State) (r : hid_mouse_report_t), (process_mouse_report st r).1 = st) ∧
    (mouse_feed (State.init []) [⟨1, 0, 0, 0⟩, ⟨1, 0, 0, 0⟩]).2
      = [[Out.buttons 'L' '-' '-', Out.cursor 0 0 0],
         [Out.buttons 'L' '-' '-', Out.cursor 0 0 0]] ∧
    ((1 ^^^ 1) &&& 1 = 0) ∧
    (mouse_feed (State.init []) [⟨0, 1, 0, 0⟩, ⟨1, 0, -1, 0⟩]).2.map render
      = ["(1 0 0)\r\n", " L-- (0 -1 0)\r\n"] := by
  refine ⟨fun st r => rfl, by decide, by decide, by decide⟩

/-- C4: when the instance's cache holds exactly one descriptor and its report
id is 0, `process_generic_report` selects that descriptor and passes the report
pointer and the length on as they were received, whatever the bytes are: the
result is the usage dispatch of that descriptor on the same bytes and length. -/
theorem generic_single_descriptor_unstripped (tbl : List (Nat × Nat)) (st : State)
    (dev_addr inst : Nat) (info : hid_info_t) (d : tuh_hid_report_info_t)
    (report : List Nat) (len : Nat)
    (hinfo : st.hid_info[inst]? = some info) (hc : info.report_count = 1)
    (hd : info.report_info[0]? = some d) (hid : d.report_id = 0) :
    select_report_info info report len = .ok (some 0, report, len) ∧
    process_generic_report tbl st dev_addr inst report len
      = dispatch_usage tbl st d report len := by
  have hsel := select_report_info_simple info report len d hc hd hid
  refine ⟨hsel, ?_⟩
  simp only [process_generic_report, rd, hinfo, hsel, hd, bind, Except.bind]

/-- Witness of C4: a single gamepad descriptor without report id, report
bytes `[7, 8]`. -/
theorem generic_single_descriptor_unstripped_witness :
    ((State.init [⟨1, [⟨0, HID_USAGE_DESKTOP_GAMEPAD, HID_USAGE_PAGE_DESKTOP⟩]⟩]).hid_info[0]?
        = some ⟨1, [⟨0, HID_USAGE_DESKTOP_GAMEPAD, HID_USAGE_PAGE_DESKTOP⟩]⟩ ∧
      (1 : Nat) = 1 ∧
      [(⟨0, HID_USAGE_DESKTOP_GAMEPAD, HID_USAGE_PAGE_DESKTOP⟩ : tuh_hid_report_info_t)][0]?
        = some ⟨0, HID_USAGE_DESKTOP_GAMEPAD, HID_USAGE_PAGE_DESKTOP⟩ ∧
      (0 : Nat) = 0) ∧
    (select_report_info ⟨1, [⟨0, HID_USAGE_DESKTOP_GAMEPAD, HID_USAGE_PAGE_DESKTOP⟩]⟩ [7, 8] 2
        = .ok (some 0, [7, 8], 2) ∧
      process_generic_report sample_keycode2ascii
          (State.init [⟨1, [⟨0, HID_USAGE_DESKTOP_GAMEPAD, HID_USAGE_PAGE_DESKTOP⟩]⟩])
          1 0 [7, 8] 2
        = dispatch_usage sample_keycode2ascii
            (State.init [⟨1, [⟨0, HID_USAGE_DESKTOP_GAMEPAD, HID_USAGE_PAGE_DESKTOP⟩]⟩])
            ⟨0, HID_USAGE_DESKTOP_GAMEPAD, HID_USAGE_PAGE_DESKTOP⟩ [7, 8] 2) :=
  ⟨⟨rfl, rfl, rfl, rfl⟩,
    generic_single_descriptor_unstripped sample_keycode2ascii
      (State.init [⟨1, [⟨0, HID_USAGE_DESKTOP_GAMEPAD, HID_USAGE_PAGE_DESKTOP⟩]⟩]) 1 0
      ⟨1, [⟨0, HID_USAGE_DESKTOP_GAMEPAD, HID_USAGE_PAGE_DESKTOP⟩]⟩
      ⟨0, HID_USAGE_DESKTOP_GAMEPAD, HID_USAGE_PAGE_DESKTOP⟩ [7, 8] 2 rfl rfl rfl rfl⟩

/-- A cache of two descriptors with report ids 1 (mouse) and 2 (gamepad), in
an array of `MAX_REPORT` entries. -/
def sample_info : hid_info_t :=
  ⟨2, [⟨1, HID_USAGE_DESKTOP_MOUSE, HID_USAGE_PAGE_DESKTOP⟩,
       ⟨2, HID_USAGE_DESKTOP_GAMEPAD, HID_USAGE_PAGE_DESKTOP⟩, ⟨0, 0, 0⟩, ⟨0, 0, 0⟩]⟩

/-- C5: for an instance cache of 0 to 4 descriptors that is not the single
descriptor with id 0, and a non-empty report whose first byte equals none of
the cached report ids, `process_generic_report` prints exactly the
"Couldn't find the report info" message and returns the whole state (keyboard
previous report, mouse previous report, raw-diff buffer, descriptor cache)
unchanged; no decoder runs. -/
theorem generic_unmatched_report_dropped (tbl : List (Nat × Nat)) (st : State)
    (dev_addr inst : Nat) (info : hid_info_t) (b : Nat) (rest : List Nat) (len : Nat)
    (hinfo : st.hid_info[inst]? = some info)
    (harr : info.report_info.length = MAX_REPORT) (hcount : info.report_count ≤ MAX_REPORT)
    (hns : ¬ (info.report_count = 1 ∧
      ∃ d0, info.report_info[0]? = some d0 ∧ d0.report_id = 0))
    (hne : ∀ (j : Nat) (d : tuh_hid_report_info_t), j < info.report_count →
      info.report_info[j]? = some d → d.report_id ≠ b) :
    select_report_info info (b :: rest) len = .ok (none, rest, (len + 65535) % 65536) ∧
    process_generic_report tbl st dev_addr inst (b :: rest) len
      = .ok (st, [Out.not_found]) := by
  have hcl : info.report_count ≤ info.report_info.length := by omega
  have hloop := find_report_id_loop_none info.report_info b info.report_count 0
    (by omega) (fun j d _ h2 h3 => hne j d (by omega) h3)
  have hsel : select_report_info info (b :: rest) len
      = .ok (none, rest, (len + 65535) % 65536) := by
    rw [select_report_info_composite info b rest len hcl hns, hloop]
    rfl
  refine ⟨hsel, ?_⟩
  simp only [process_generic_report, rd, hinfo, hsel, bind, Except.bind]

/-- Witness of C5: the two-descriptor cache and a report with id 9. -/
theorem generic_unmatched_report_dropped_witness :
    ((State.init [sample_info]).hid_info[0]? = some sample_info ∧
      sample_info.report_info.length = MAX_REPORT ∧ sample_info.report_count ≤ MAX_REPORT ∧
      ¬ (sample_info.report_count = 1 ∧
        ∃ d0, sample_info.report_info[0]? = some d0 ∧ d0.report_id = 0) ∧
      ∀ (j : Nat) (d : tuh_hid_report_info_t), j < sample_info.report_count →
        sample_info.report_info[j]? = some d → d.report_id ≠ 9) ∧
    (select_report_info sample_info (9 :: [1, 2, 3]) 4
        = .ok (none, [1, 2, 3], (4 + 65535) % 65536) ∧
      process_generic_report sample_keycode2ascii (State.init [sample_info]) 1 0
          (9 :: [1, 2, 3]) 4
        = .ok (State.init [sample_info], [Out.not_found])) :=
  have hns : ¬ (sample_info.report_count = 1 ∧
      ∃ d0, sample_info.report_info[0]? = some d0 ∧ d0.report_id = 0) := by
    simp [sample_info]
  have hne : ∀ (j : Nat) (d : tuh_hid_report_info_t), j < sample_info.report_count →
      sample_info.report_info[j]? = some d → d.report_id ≠ 9 := by
    intro j d hj hd
    have hj2 : j < 2 := hj
    interval_cases j <;> simp [sample_info] at hd <;> subst hd <;> decide
  ⟨⟨rfl, rfl, by decide, hns, hne⟩,
    generic_unmatched_report_dropped sample_keycode2ascii (State.init [sample_info]) 1 0
      sample_info 9 [1, 2, 3] 4 rfl rfl (by decide) hns hne⟩

/-- C6: for an instance cache that is not the single descriptor with id 0 and
a report of length `len ≥ 1` whose first byte is the report id of a cached
descriptor, `process_generic_report` selects the first descriptor in cache order
with that id and passes the bytes after the first one on with length `len - 1`.
With the cache `[{id 1, Desktop, Mouse}]` and bytes `[1, p...]` the result
(output and state) is that of `process_mouse_report` on `p`. -/
theorem generic_matched_report_stripped (tbl : List (Nat × Nat)) (st : State)
    (dev_addr inst : Nat) (info : hid_info_t) (b : Nat) (rest : List Nat) (len : Nat)
    (j : Nat) (d : tuh_hid_report_info_t)
    (hinfo : st.hid_info[inst]? = some info)
    (hns : ¬ (info.report_count = 1 ∧
      ∃ d0, info.report_info[0]? = some d0 ∧ d0.report_id = 0))
    (hcount : info.report_count ≤ info.report_info.length)
    (hlen1 : 1 ≤ len) (hlen2 : len < 65536)
    (hj : j < info.report_count) (hd : info.report_info[j]? = some d)
    (hid : d.report_id = b)
    (hfirst : ∀ (q : Nat) (e : tuh_hid_report_info_t), q < j →
      info.report_info[q]? = some e → e.report_id ≠ b) :
    (select_report_info info (b :: rest) len = .ok (some j, rest, len - 1) ∧
      process_generic_report tbl st dev_addr inst (b :: rest) len
        = dispatch_usage tbl st d rest (len - 1)) ∧
    (∀ (st0 : State) (more : List tuh_hid_report_info_t) (p : List Nat),
      st0.hid_info[inst]?
        = some ⟨1, ⟨1, HID_USAGE_DESKTOP_MOUSE, HID_USAGE_PAGE_DESKTOP⟩ :: more⟩ →
      process_generic_report tbl st0 dev_addr inst (1 :: p) len
        = (mouse_report_of_bytes p).map (process_mouse_report st0)) := by
  have hloop := find_report_id_loop_first info.report_info b info.report_count 0 j d
    (by omega) (by omega) hd hid (fun q e _ h2 h3 => hfirst q e h2 h3)
  have hl : (len + 65535) % 65536 = len - 1 := by omega
  have hsel : select_report_info info (b :: rest) len = .ok (some j, rest, len - 1) := by
    rw [select_report_info_composite info b rest len hcount hns, hloop, hl]
    rfl
  refine ⟨⟨hsel, ?_⟩, ?_⟩
  · simp only [process_generic_report, rd, hinfo, hsel, hd, bind, Except.bind]
  · intro st0 more p h0
    simp only [process_generic_report, rd, h0, select_report_info, find_report_id_loop,
      dispatch_usage, bind, Except.bind, List.getElem?_cons_zero, List.drop_succ_cons,
      List.drop_zero]
    simp [HID_USAGE_DESKTOP_MOUSE, HID_USAGE_DESKTOP_KEYBOARD]
    cases mouse_report_of_bytes p <;> rfl

/-- Witness of C6: the two-descriptor cache and a three-byte report with id 2,
which selects the second descriptor and leaves the bytes `[5, 6]`. -/
theorem generic_matched_report_stripped_witness :
    ((State.init [sample_info]).hid_info[0]? = some sample_info ∧
      ¬ (sample_info.report_count = 1 ∧
        ∃ d0, sample_info.report_info[0]? = some d0 ∧ d0.report_id = 0) ∧
      sample_info.report_count ≤ sample_info.report_info.length ∧
      1 ≤ 3 ∧ 3 < 65536 ∧ 1 < sample_info.report_count ∧
      sample_info.report_info[1]?
        = some ⟨2, HID_USAGE_DESKTOP_GAMEPAD, HID_USAGE_PAGE_DESKTOP⟩ ∧
      (⟨2, HID_USAGE_DESKTOP_GAMEPAD, HID_USAGE_PAGE_DESKTOP⟩ :
        tuh_hid_report_info_t).report_id = 2 ∧
      ∀ (q : Nat) (e : tuh_hid_report_info_t), q < 1 →
        sample_info.report_info[q]? = some e → e.report_id ≠ 2) ∧
    ((select_report_info sample_info (2 :: [5, 6]) 3 = .ok (some 1, [5, 6], 3 - 1) ∧
      process_generic_report sample_keycode2ascii (State.init [sample_info]) 1 0
          (2 :: [5, 6]) 3
        = dispatch_usage sample_keycode2ascii (State.init [sample_info])
            ⟨2, HID_USAGE_DESKTOP_GAMEPAD, HID_USAGE_PAGE_DESKTOP⟩ [5, 6] (3 - 1)) ∧
    (∀ (st0 : State) (more : List tuh_hid_report_info_t) (p : List Nat),
      st0.hid_info[0]?
        = some ⟨1, ⟨1, HID_USAGE_DESKTOP_MOUSE, HID_USAGE_PAGE_DESKTOP⟩ :: more⟩ →
      process_generic_report sample_keycode2ascii st0 1 0 (1 :: p) 3
        = (mouse_report_of_bytes p).map (process_mouse_report st0))) :=
  have hns : ¬ (sample_info.report_count = 1 ∧
      ∃ d0, sample_info.report_info[0]? = some d0 ∧ d0.report_id = 0) := by
    simp [sample_info]
  have hfirst : ∀ (q : Nat) (e : tuh_hid_report_info_t), q < 1 →
      sample_info.report_info[q]? = some e → e.report_id ≠ 2 := by
    intro q e hq he
    interval_cases q
    simp [sample_info] at he
    subst he
    decide
  ⟨⟨rfl, hns, by decide, by decide, by decide, by decide, rfl, rfl, hfirst⟩,
    generic_matched_report_stripped sample_keycode2ascii (State.init [sample_info]) 1 0
      sample_info 2 [5, 6] 3 1 ⟨2, HID_USAGE_DESKTOP_GAMEPAD, HID_USAGE_PAGE_DESKTOP⟩
      rfl hns (by decide) (by decide) (by decide) (by decide) rfl rfl hfirst⟩

/-- C7: once `process_generic_report` has found a descriptor, what runs depends
on the descriptor's usage page and usage only: Desktop and Keyboard runs
`process_kbd_report` on the bytes read as a boot keyboard report, Desktop and
Mouse runs `process_mouse_report` on the bytes read as a boot mouse report,
Desktop and Gamepad runs `print_report`, and any other usage page or usage
returns the state unchanged with no output at all. -/
theorem generic_dispatch_by_usage (tbl : List (Nat × Nat)) (st : State)
    (dev_addr inst : Nat) (info : hid_info_t) (report : List Nat) (len : Nat)
    (j : Nat) (d : tuh_hid_report_info_t) (report1 : List Nat) (len1 : Nat)
    (hinfo : st.hid_info[inst]? = some info)
    (hsel : select_report_info info report len = .ok (some j, report1, len1))
    (hd : info.report_info[j]? = some d) :
    (d.usage_page = HID_USAGE_PAGE_DESKTOP → d.usage = HID_USAGE_DESKTOP_KEYBOARD →
      process_generic_report tbl st dev_addr inst report len
        = (kbd_report_of_bytes report1).bind (process_kbd_report tbl st)) ∧
    (d.usage_page = HID_USAGE_PAGE_DESKTOP → d.usage = HID_USAGE_DESKTOP_MOUSE →
      process_generic_report tbl st dev_addr inst report len
        = (mouse_report_of_bytes report1).map (process_mouse_report st)) ∧
    (d.usage_page = HID_USAGE_PAGE_DESKTOP → d.usage = HID_USAGE_DESKTOP_GAMEPAD →
      process_generic_report tbl st dev_addr inst report len
        = print_report st report1 len1) ∧
    (¬ (d.usage_page = HID_USAGE_PAGE_DESKTOP ∧
        (d.usage = HID_USAGE_DESKTOP_KEYBOARD ∨ d.usage = HID_USAGE_DESKTOP_MOUSE ∨
          d.usage = HID_USAGE_DESKTOP_GAMEPAD)) →
      process_generic_report tbl st dev_addr inst report len = .ok (st, [])) := by
  have hrun : process_generic_report tbl st dev_addr inst report len
      = dispatch_usage tbl st d report1 len1 := by
    simp only [process_generic_report, rd, hinfo, hsel, hd, bind, Except.bind]
  rw [hrun]
  refine ⟨?_, ?_, ?_, ?_⟩
  · intro hp hu
    simp only [dispatch_usage, hp, hu, if_true, bind]
  · intro hp hu
    simp only [dispatch_usage, hp, hu, if_true, bind, Except.bind]
    simp [HID_USAGE_DESKTOP_MOUSE, HID_USAGE_DESKTOP_KEYBOARD]
    cases mouse_report_of_bytes report1 <;> rfl
  · intro hp hu
    simp only [dispatch_usage, hp, hu, if_true]
    simp [HID_USAGE_DESKTOP_MOUSE, HID_USAGE_DESKTOP_KEYBOARD, HID_USAGE_DESKTOP_GAMEPAD]
  · intro hn
    simp only [dispatch_usage]
    by_cases hp : d.usage_page = HID_USAGE_PAGE_DESKTOP
    · have h1 : ¬ d.usage = HID_USAGE_DESKTOP_KEYBOARD := fun h => hn ⟨hp, Or.inl h⟩
      have h2 : ¬ d.usage = HID_USAGE_DESKTOP_MOUSE := fun h => hn ⟨hp, Or.inr (Or.inl h)⟩
      have h3 : ¬ d.usage = HID_USAGE_DESKTOP_GAMEPAD := fun h => hn ⟨hp, Or.inr (Or.inr h)⟩
      simp only [hp, h1, h2, h3, if_true, if_false]
    · simp only [hp, if_false]

/-- C9: for a stored buffer of 40 bytes and a report of `len ≤ 40` bytes,
`print_report` succeeds; the `offset:value` pairs it prints are, in increasing
offset order, exactly the offsets `i < len` at which the report byte differs
from the stored byte, each with the report byte as value; afterwards the stored
bytes below `len` are the report bytes and the others are unchanged (as is the
rest of the state), and printing the same report again prints no pair and
leaves the state as it is. -/
theorem print_report_diff (st : State) (report : List Nat) (len : Nat)
    (hbuf : st.buffer.length = 40) (hlen : len ≤ 40) (hrep : len ≤ report.length) :
    ∃ (st1 : State) (out : List Out), print_report st report len = .ok (st1, out) ∧
      pairs_of out = (List.range len).filterMap (fun i =>
          if report.getD i 0 ≠ st.buffer.getD i 0 then some (i, report.getD i 0) else none) ∧
      st1.buffer.length = 40 ∧
      (∀ j : Nat, st1.buffer[j]? = if j < len then report[j]? else st.buffer[j]?) ∧
      st1.kbd_prev_report = st.kbd_prev_report ∧
      st1.mouse_prev_report = st.mouse_prev_report ∧ st1.hid_info = st.hid_info ∧
      ∃ out2 : List Out, print_report st1 report len = .ok (st1, out2) ∧
        pairs_of out2 = [] := by
  obtain ⟨buffer1, hrun, hl1, hget1⟩ := print_report_eq st report len (by omega) hrep
  have hl1b : buffer1.length = 40 := by omega
  obtain ⟨buffer2, hrun2, hl2, hget2⟩ :=
    print_report_eq { st with buffer := buffer1 } report len (by simp; omega) hrep
  have hsame : buffer2 = buffer1 := by
    apply List.ext_getElem?
    intro j
    rw [hget2 j]
    by_cases hj : j < len
    · simp [hj, hget1 j]
    · simp [hj]
  refine ⟨{ st with buffer := buffer1 }, _, hrun, pairs_of_print _ _ _, hl1b, hget1,
    rfl, rfl, rfl,
    [Out.new_report] ++ diff_events buffer1 report len 0 ++ [Out.newline], ?_, ?_⟩
  · rw [hrun2, hsame]
  · rw [pairs_of_print]
    apply List.filterMap_eq_nil_iff.mpr
    intro i hi
    have hil : i < len := List.mem_range.mp hi
    have hir : i < report.length := by omega
    have hsm : report[i]? = buffer1[i]? := by
      rw [hget1 i, if_pos hil]
    simp [List.getD_eq_getElem?_getD, hsm]

/-- Witness of C9: the zero buffer and the three-byte report `[1, 0, 3]`. -/
theorem print_report_diff_witness :
    ((State.init []).buffer.length = 40 ∧ 3 ≤ 40 ∧ 3 ≤ [1, 0, 3].length) ∧
    ∃ (st1 : State) (out : List Out), print_report (State.init []) [1, 0, 3] 3
        = .ok (st1, out) ∧
      pairs_of out = (List.range 3).filterMap (fun i =>
          if [1, 0, 3].getD i 0 ≠ (State.init []).buffer.getD i 0
            then some (i, [1, 0, 3].getD i 0) else none) ∧
      st1.buffer.length = 40 ∧
      (∀ j : Nat, st1.buffer[j]?
        = if j < 3 then [1, 0, 3][j]? else (State.init []).buffer[j]?) ∧
      st1.kbd_prev_report = (State.init []).kbd_prev_report ∧
      st1.mouse_prev_report = (State.init []).mouse_prev_report ∧
      st1.hid_info = (State.init []).hid_info ∧
      ∃ out2 : List Out, print_report st1 [1, 0, 3] 3 = .ok (st1, out2) ∧
        pairs_of out2 = [] :=
  ⟨⟨rfl, by decide, by decide⟩,
    print_report_diff (State.init []) [1, 0, 3] 3 rfl (by decide) (by decide)⟩

/-- Witness of C7: the two-descriptor cache and a report with id 1, which is
found at index 0 and is a Desktop Mouse descriptor. -/
theorem generic_dispatch_by_usage_witness :
    ((State.init [sample_info]).hid_info[0]? = some sample_info ∧
      select_report_info sample_info [1, 1, 2, 3, 4] 5 = .ok (some 0, [1, 2, 3, 4], 4) ∧
      sample_info.report_info[0]?
        = some ⟨1, HID_USAGE_DESKTOP_MOUSE, HID_USAGE_PAGE_DESKTOP⟩) ∧
    process_generic_report sample_keycode2ascii (State.init [sample_info]) 1 0
        [1, 1, 2, 3, 4] 5
      = (mouse_report_of_bytes [1, 2, 3, 4]).map (process_mouse_report (State.init [sample_info])) :=
  ⟨⟨rfl, rfl, rfl⟩,
    (generic_dispatch_by_usage sample_keycode2ascii (State.init [sample_info]) 1 0
      sample_info [1, 1, 2, 3, 4] 5 0 ⟨1, HID_USAGE_DESKTOP_MOUSE, HID_USAGE_PAGE_DESKTOP⟩
      [1, 2, 3, 4] 4 rfl rfl rfl).2.1 rfl rfl⟩

/-- C8 (evaluation of the code): a freshly pressed keycode of 128 or more makes
`process_kbd_report` read `keycode2ascii[k]` outside the 128-entry table, for
every table, modifier byte and previous report; only below 128 does the lookup
stay inside, where an unmapped key (table value 0) emits the null character. -/
theorem kbd_lookup_outside_table (tbl : List (Nat × Nat)) (st : State) (m k : Nat)
    (htbl : tbl.length = 128) (hp : st.kbd_prev_report.keycode.length = 6)
    (hk : 128 ≤ k) (hbyte : k < 256) (hfresh : k ∉ st.kbd_prev_report.keycode) :
    process_kbd_report tbl st ⟨m, 0, [k, 0, 0, 0, 0, 0]⟩ = .error (.table_oob k) ∧
    (∀ q : Nat, q < 128 → q ≠ 0 → q ∉ st.kbd_prev_report.keycode →
      tbl[q]? = some (0, 0) →
      kbd_slot tbl st.kbd_prev_report ⟨m, 0, [q, 0, 0, 0, 0, 0]⟩ 0 = .ok [Out.putchar 0]) := by
  constructor
  · have hk0 : k ≠ 0 := by omega
    have hrow : tbl[k]? = none := List.getElem?_eq_none (by omega)
    simp only [process_kbd_report, kbd_loop, kbd_slot, rd, List.getElem?_cons_zero,
      find_key_in_report_eq _ k hp, hrow, bind, Except.bind]
    simp [hk0, hfresh]
  · intro q _ hq0 hqf hrow
    simp only [kbd_slot, rd, List.getElem?_cons_zero, find_key_in_report_eq _ q hp, hrow,
      bind, Except.bind]
    simp [hq0, hqf, emit_char]

/-- Witness of C8: keycode 128 in the first slot, from the all-zero state. -/
theorem kbd_lookup_outside_table_witness :
    (sample_keycode2ascii.length = 128 ∧
      (State.init []).kbd_prev_report.keycode.length = 6 ∧ 128 ≤ 128 ∧ 128 < 256 ∧
      128 ∉ (State.init []).kbd_prev_report.keycode) ∧
    (process_kbd_report sample_keycode2ascii (State.init []) ⟨0, 0, [128, 0, 0, 0, 0, 0]⟩
        = .error (.table_oob 128) ∧
    (∀ q : Nat, q < 128 → q ≠ 0 → q ∉ (State.init []).kbd_prev_report.keycode →
      sample_keycode2ascii[q]? = some (0, 0) →
      kbd_slot sample_keycode2ascii (State.init []).kbd_prev_report
        ⟨0, 0, [q, 0, 0, 0, 0, 0]⟩ 0 = .ok [Out.putchar 0])) :=
  ⟨⟨rfl, rfl, by decide, by decide, by decide⟩,
    kbd_lookup_outside_table sample_keycode2ascii (State.init []) 0 128 rfl rfl
      (by decide) (by decide) (by decide)⟩

/-- A cache with a single gamepad descriptor of report id 1, in an array of
`MAX_REPORT` entries. -/
def sample_gamepad_info : hid_info_t :=
  ⟨1, [⟨1, HID_USAGE_DESKTOP_GAMEPAD, HID_USAGE_PAGE_DESKTOP⟩, ⟨0, 0, 0⟩, ⟨0, 0, 0⟩,
    ⟨0, 0, 0⟩]⟩

set_option maxRecDepth 100000 in
/-- C10 (evaluation of the code): with a single gamepad descriptor of report id
1 and a report of received length 0, the dispatcher reads `report[0]`, which
lies outside the zero received bytes; when the byte behind the pointer is a
stale 1, the descriptor is selected, `len--` wraps to 65535, and `print_report`
is handed that length and runs past its 40-byte buffer at offset 40. -/
theorem generic_zero_length_report_overrun (tbl : List (Nat × Nat)) :
    select_report_info sample_gamepad_info [] 0 = .error (.report_oob 0) ∧
    select_report_info sample_gamepad_info (1 :: List.replicate 63 0) 0
      = .ok (some 0, List.replicate 63 0, 65535) ∧
    process_generic_report tbl (State.init [sample_gamepad_info]) 1 0
        (1 :: List.replicate 63 0) 0
      = print_report (State.init [sample_gamepad_info]) (List.replicate 63 0) 65535 ∧
    print_report (State.init [sample_gamepad_info]) (List.replicate 63 0) 65535
      = .error (.buffer_oob 40) ∧
    ¬ (65535 ≤ 0) := by
  refine ⟨rfl, rfl, rfl, rfl, by decide⟩

end HidController
